import Mathlib

/-!
Verification of the ftc (engine.io-compatible) server: packet/payload
codecs, the session state machine, the client registry and the HTTP
dispatch layer, shallowly embedded from the Go sources.

Byte strings are modelled as `List Nat` (one element per byte).
-/

namespace Ftc

/-! ### Decimal numerals (strconv.Itoa / strconv.Atoi) -/

/-- Decimal digit bytes, on explicit fuel (each step divides by 10, so
fuel `n + 1` never runs out). -/
def toDecAux : Nat → Nat → List Nat
  | 0, _ => []
  | fuel + 1, n => if n < 10 then [n + 48] else toDecAux fuel (n / 10) ++ [n % 10 + 48]

/-- Decimal digit bytes of `n`, as produced by `strconv.Itoa` for
non-negative input (most significant digit first, ASCII `'0'..'9'`). -/
def toDec (n : Nat) : List Nat := toDecAux (n + 1) n

/-- One byte in ASCII `'0'..'9'`. -/
def isDigitB (d : Nat) : Bool := 48 ≤ d && d ≤ 57

/-- Value accumulated by a decimal parse. -/
def atoiVal (l : List Nat) : Nat := l.foldl (fun a d => a * 10 + (d - 48)) 0

/-- `strconv.Atoi` on a byte string, restricted to unsigned decimal
numerals (the only shapes the codecs in scope produce or consume);
`none` is Atoi's error return. -/
def atoiOpt (l : List Nat) : Option Nat :=
  if !l.isEmpty && l.all isDigitB then some (atoiVal l) else none

theorem toDecAux_eq (n : Nat) : ∀ fuel, n < fuel → toDecAux fuel n = toDec n := by
  induction n using Nat.strong_induction_on with
  | _ n ih =>
    intro fuel hf
    match fuel, hf with
    | f + 1, hf =>
      show toDecAux (f + 1) n = toDecAux (n + 1) n
      have hstep : toDecAux (n + 1) n
          = if n < 10 then [n + 48] else toDecAux n (n / 10) ++ [n % 10 + 48] := rfl
      have hstepL : toDecAux (f + 1) n
          = if n < 10 then [n + 48] else toDecAux f (n / 10) ++ [n % 10 + 48] := rfl
      rw [hstep, hstepL]
      split_ifs with h10
      · rfl
      · have hdiv : n / 10 < n := Nat.div_lt_self (by omega) (by omega)
        rw [ih (n / 10) hdiv f (by omega), ih (n / 10) hdiv n hdiv]

theorem toDec_unfold (n : Nat) :
    toDec n = if n < 10 then [n + 48] else toDec (n / 10) ++ [n % 10 + 48] := by
  have hstep : toDec n
      = if n < 10 then [n + 48] else toDecAux n (n / 10) ++ [n % 10 + 48] := rfl
  rw [hstep]
  split_ifs with h10
  · rfl
  · rw [toDecAux_eq (n / 10) n (Nat.div_lt_self (by omega) (by omega))]

theorem toDec_ne_nil (n : Nat) : toDec n ≠ [] := by
  rw [toDec_unfold]
  split_ifs <;> simp

theorem toDec_all_digits (n : Nat) : ∀ d ∈ toDec n, isDigitB d = true := by
  induction n using Nat.strong_induction_on with
  | _ n ih =>
    rw [toDec_unfold]
    split_ifs with h10
    · intro d hd
      simp only [List.mem_singleton] at hd
      subst hd
      simp only [isDigitB]
      simp
      omega
    · intro d hd
      rcases List.mem_append.mp hd with h1 | h2
      · exact ih (n / 10) (Nat.div_lt_self (by omega) (by omega)) d h1
      · simp only [List.mem_singleton] at h2
        subst h2
        have : n % 10 < 10 := Nat.mod_lt _ (by omega)
        simp only [isDigitB]
        simp
        omega

theorem colon_not_in_toDec (n : Nat) : 58 ∉ toDec n := by
  intro hmem
  have := toDec_all_digits n 58 hmem
  simp [isDigitB] at this

theorem foldl_toDec (n : Nat) : ∀ a : Nat,
    (toDec n).foldl (fun a d => a * 10 + (d - 48)) a
      = a * 10 ^ (toDec n).length + n := by
  induction n using Nat.strong_induction_on with
  | _ n ih =>
    intro a
    rw [toDec_unfold]
    split_ifs with h10
    · simp only [List.foldl_cons, List.foldl_nil, List.length_singleton]
      omega
    · simp only [List.foldl_append, List.foldl_cons, List.foldl_nil,
        List.length_append, List.length_singleton]
      rw [ih (n / 10) (Nat.div_lt_self (by omega) (by omega)) a]
      have hmod : n % 10 + 48 - 48 = n % 10 := by omega
      rw [hmod]
      have hpow : a * 10 ^ ((toDec (n / 10)).length + 1)
          = a * 10 ^ (toDec (n / 10)).length * 10 := by ring
      rw [hpow]
      have := Nat.div_add_mod n 10
      omega

theorem atoiOpt_toDec (n : Nat) : atoiOpt (toDec n) = some n := by
  unfold atoiOpt
  have h1 : (toDec n).isEmpty = false := by
    cases hh : toDec n with
    | nil => exact absurd hh (toDec_ne_nil n)
    | cons a l => simp
  have h2 : (toDec n).all isDigitB = true := List.all_eq_true.mpr (toDec_all_digits n)
  rw [h1, h2]
  simp only [Bool.not_false, Bool.and_self, if_pos]
  unfold atoiVal
  rw [foldl_toDec]
  simp

/-! ### Positions of the payload delimiter `':'` (byte 58) -/

/-- Index of the first `':'` byte, as `strings.Index(s, ":")` /
`bytes.IndexByte(data, ':')`; `none` is Go's `-1`. -/
def idxOf58 : List Nat → Option Nat
  | [] => none
  | b :: rest => if b = 58 then some 0 else (idxOf58 rest).map (· + 1)

theorem idxOf58_eq_none {l : List Nat} (h : 58 ∉ l) : idxOf58 l = none := by
  induction l with
  | nil => rfl
  | cons b rest ih =>
    simp only [List.mem_cons, not_or] at h
    unfold idxOf58
    rw [if_neg (by omega), ih h.2]
    rfl

theorem idxOf58_append {pre : List Nat} (rest : List Nat) (h : 58 ∉ pre) :
    idxOf58 (pre ++ 58 :: rest) = some pre.length := by
  induction pre with
  | nil => simp [idxOf58]
  | cons b p ih =>
    simp only [List.mem_cons, not_or] at h
    simp only [List.cons_append]
    unfold idxOf58
    rw [if_neg (by omega), ih h.2]
    rfl

theorem take_append_self (pre tail : List Nat) :
    (pre ++ tail).take pre.length = pre := by
  induction pre with
  | nil => simp
  | cons b p ih => simp [ih]

theorem drop_append_self (pre tail : List Nat) :
    (pre ++ tail).drop pre.length = tail := by
  induction pre with
  | nil => simp
  | cons b p ih => simp [ih]

/-! ### The scratch byte codec (src/scratch/encoding.go) -/

/-- A packet: a single type byte and its data bytes (`scratch.packet`).
Go's `nil` and empty `data` slices are bytewise equal and share the
model value `[]`. -/
structure packet where
  typ : Nat
  data : List Nat
deriving DecidableEq

/-- The seven valid packet type bytes, ASCII `'0'..'6'`
(`packetTypeLookup`). -/
def packetTypeLookup : List Nat := [48, 49, 50, 51, 52, 53, 54]

/-- `packetEncoder.encode`: the type byte followed immediately by the
data bytes (no separator; empty data legal). -/
def packetEncode (p : packet) : List Nat := p.typ :: p.data

/-- `packetDecoder.decode` over the full framed region: read one byte,
validate it against the type alphabet, consume the remainder as data.
`none` is the error return (`io.ReadFull` failure on empty input or an
invalid packet type). -/
def packetDecode (b : List Nat) : Option packet :=
  match b with
  | [] => none
  | t :: rest => if t ∈ packetTypeLookup then some ⟨t, rest⟩ else none

/-- `payloadEncoder.encode`: for each packet, the decimal byte length
of the encoded packet (`buf.Len()`), a `':'`, then the encoded packet. -/
def payloadEncode : List packet → List Nat
  | [] => []
  | p :: rest => toDec (packetEncode p).length ++ 58 :: (packetEncode p ++ payloadEncode rest)

/-- One scan step of `payloadDecoder.decode` (the `scanPacket` split
function driving the `bufio.Scanner`), iterated on explicit fuel: find
the first `':'`; no `':'` left means the scanner stops at EOF with any
remaining non-token bytes ignored and a nil error; a non-numeric length
prefix is `scanPacket`'s `strconv.Atoi` error; a length pointing past
the available bytes is the out-of-range slice `data[i+1 : i+1+size]`,
modelled as failure; otherwise the token is handed to
`packetDecoder.decode` and the loop continues. -/
def payloadDecodeAux : Nat → List Nat → Option (List packet)
  | 0, _ => none
  | fuel + 1, b =>
    match idxOf58 b with
    | none => some []
    | some i =>
      match atoiOpt (b.take i) with
      | none => none
      | some size =>
        let rest := b.drop (i + 1)
        if size ≤ rest.length then
          match packetDecode (rest.take size) with
          | none => none
          | some pkt => (payloadDecodeAux fuel (rest.drop size)).map (pkt :: ·)
        else none

/-- `payloadDecoder.decode`. Each loop iteration consumes at least one
byte, so fuel `length + 1` never runs out. -/
def payloadDecode (b : List Nat) : Option (List packet) :=
  payloadDecodeAux (b.length + 1) b

theorem payloadDecodeAux_encode (P : List packet) :
    ∀ fuel, (payloadEncode P).length < fuel →
    (∀ p ∈ P, packetDecode (packetEncode p) = some p) →
    payloadDecodeAux fuel (payloadEncode P) = some P := by
  induction P with
  | nil =>
    intro fuel hfuel _
    match fuel, hfuel with
    | fuel + 1, _ => simp [payloadDecodeAux, payloadEncode, idxOf58]
  | cons p rest ih =>
    intro fuel hfuel hrt
    match fuel, hfuel with
    | fuel + 1, hfuel =>
      have hlen : (payloadEncode (p :: rest)).length
          = (toDec (packetEncode p).length).length + 1
            + (packetEncode p).length + (payloadEncode rest).length := by
        simp [payloadEncode]
        omega
      have htake : (toDec (packetEncode p).length ++ 58 :: (packetEncode p ++ payloadEncode rest)).take
            (toDec (packetEncode p).length).length
          = toDec (packetEncode p).length :=
        take_append_self _ _
      have hdrop : (toDec (packetEncode p).length ++ 58 :: (packetEncode p ++ payloadEncode rest)).drop
            ((toDec (packetEncode p).length).length + 1)
          = packetEncode p ++ payloadEncode rest := by
        have heq : toDec (packetEncode p).length ++ 58 :: (packetEncode p ++ payloadEncode rest)
            = (toDec (packetEncode p).length ++ [58]) ++ (packetEncode p ++ payloadEncode rest) := by
          simp
        have hl : (toDec (packetEncode p).length ++ [58]).length
            = (toDec (packetEncode p).length).length + 1 := by simp
        rw [heq, ← hl, drop_append_self]
      unfold payloadDecodeAux
      rw [payloadEncode, idxOf58_append _ (colon_not_in_toDec _)]
      simp only [htake, atoiOpt_toDec, hdrop]
      rw [if_pos (by simp)]
      simp only [take_append_self, drop_append_self]
      rw [hrt p (by simp)]
      have hdigits : 1 ≤ (toDec (packetEncode p).length).length := by
        cases hh : toDec (packetEncode p).length with
        | nil => exact absurd hh (toDec_ne_nil _)
        | cons a l => simp
      rw [ih fuel (by omega) (fun q hq => hrt q (by simp [hq]))]
      rfl

/-! ### The text codec of server.go (`packet.MarshalText` / `packet.UnmarshalText`,
`payload.MarshalText` / `payload.UnmarshalText`) -/

/-- The dynamically typed `data interface{}` of a server.go `packet`:
Go `nil`, a string (its bytes), or any other value, represented by the
bytes `json.Marshal` produces for it (the `default` branch of
`MarshalText`). -/
inductive GoData where
  | nil : GoData
  | str : List Nat → GoData
  | other : List Nat → GoData
deriving DecidableEq

/-- A server.go `packet`: `typ` is one of the one-byte strings
`"0".."6"` in well-formed packets (the field itself is an arbitrary
string), `data` is dynamically typed. -/
structure packetS where
  typ : List Nat
  data : GoData
deriving DecidableEq

/-- The seven packet type strings `packetTypeOpen .. packetTypeNoop`,
in the order `UnmarshalText` tries them. -/
def packetTypes : List (List Nat) := [[48], [49], [50], [51], [52], [53], [54]]

def packetTypeOpenS : List Nat := [48]
def packetTypeCloseS : List Nat := [49]
def packetTypePingS : List Nat := [50]
def packetTypePongS : List Nat := [51]
def packetTypeMessageS : List Nat := [52]
def packetTypeUpgradeS : List Nat := [53]
def packetTypeNoopS : List Nat := [54]

/-- `packet.MarshalText`: `typ` alone for nil data, `typ + data` for a
string, `typ + json.Marshal(data)` otherwise (the JSON bytes are the
payload of the `other` constructor; `json.Marshal` errors are not
representable for the values this server constructs). -/
def packetMarshalText (p : packetS) : List Nat :=
  match p.data with
  | .nil => p.typ
  | .str s => p.typ ++ s
  | .other j => p.typ ++ j

/-- `packet.UnmarshalText`: the first type string that is a prefix of
the text wins; data is the text with that prefix trimmed (always a
string). `none` is the "invalid packet type" error. -/
def packetUnmarshalText (b : List Nat) : Option packetS :=
  (packetTypes.find? (fun t => t.isPrefixOf b)).map
    (fun t => ⟨t, .str (b.drop t.length)⟩)

/-- `payload.MarshalText`: concatenation of
`strconv.Itoa(len(b)) ++ ":" ++ b` for each packet's marshalled text
`b` (a packet marshal error would `break` the loop; not representable
here since `packetMarshalText` is total). -/
def payloadMarshalText : List packetS → List Nat
  | [] => []
  | p :: rest =>
    toDec (packetMarshalText p).length ++ 58 :: (packetMarshalText p ++ payloadMarshalText rest)

/-- The loop of `payload.UnmarshalText` on explicit fuel, carrying the
packets appended so far (`*p = append(*p, &pkt)`). `l` is freshly
declared `var l int` each iteration, so `strconv.Atoi(s[l:i])` reads
`s[0:i]`; the Atoi error is discarded, leaving `l = 0` on a bad prefix.
No first `':'` (`i == -1`) exits the loop with a nil error. A length
reaching past the text is the panicking slice `s[i : i+l]`, modelled as
failure; a packet unmarshal error is returned. (The dead
`if p == nil` branch — the receiver pointer is never nil — is
omitted.) -/
def payloadUnmarshalAux : Nat → List packetS → List Nat → Option (List packetS)
  | 0, _, _ => none
  | fuel + 1, acc, s =>
    match idxOf58 s with
    | none => some acc
    | some i =>
      let l := (atoiOpt (s.take i)).getD 0
      if i + 1 + l ≤ s.length then
        match packetUnmarshalText ((s.drop (i + 1)).take l) with
        | none => none
        | some pkt => payloadUnmarshalAux fuel (acc ++ [pkt]) ((s.drop (i + 1)).drop l)
      else none

/-- `payload.UnmarshalText` into the payload `acc` (an empty payload at
every call site). Each iteration consumes at least one byte, so fuel
`length + 1` never runs out. -/
def payloadUnmarshalText (acc : List packetS) (s : List Nat) : Option (List packetS) :=
  payloadUnmarshalAux (s.length + 1) acc s

theorem packetUnmarshalText_nil : packetUnmarshalText [] = none := by
  decide

theorem payloadUnmarshalAux_marshal (Q : List packetS) :
    ∀ (acc : List packetS) (fuel : Nat), (payloadMarshalText Q).length < fuel →
    (∀ q ∈ Q, packetUnmarshalText (packetMarshalText q) = some q) →
    payloadUnmarshalAux fuel acc (payloadMarshalText Q) = some (acc ++ Q) := by
  induction Q with
  | nil =>
    intro acc fuel hfuel _
    match fuel, hfuel with
    | fuel + 1, _ => simp [payloadUnmarshalAux, payloadMarshalText, idxOf58]
  | cons q rest ih =>
    intro acc fuel hfuel hrt
    match fuel, hfuel with
    | fuel + 1, hfuel =>
      have hne : packetMarshalText q ≠ [] := by
        intro hnil
        have := hrt q (by simp)
        rw [hnil, packetUnmarshalText_nil] at this
        exact Option.noConfusion this
      have hlen1 : 1 ≤ (packetMarshalText q).length := by
        cases hh : packetMarshalText q with
        | nil => exact absurd hh hne
        | cons a l => simp
      have htake : (toDec (packetMarshalText q).length ++ 58 :: (packetMarshalText q ++ payloadMarshalText rest)).take
            (toDec (packetMarshalText q).length).length
          = toDec (packetMarshalText q).length :=
        take_append_self _ _
      have hdrop : (toDec (packetMarshalText q).length ++ 58 :: (packetMarshalText q ++ payloadMarshalText rest)).drop
            ((toDec (packetMarshalText q).length).length + 1)
          = packetMarshalText q ++ payloadMarshalText rest := by
        have heq : toDec (packetMarshalText q).length ++ 58 :: (packetMarshalText q ++ payloadMarshalText rest)
            = (toDec (packetMarshalText q).length ++ [58]) ++ (packetMarshalText q ++ payloadMarshalText rest) := by
          simp
        have hl : (toDec (packetMarshalText q).length ++ [58]).length
            = (toDec (packetMarshalText q).length).length + 1 := by simp
        rw [heq, ← hl, drop_append_self]
      have hlen : (payloadMarshalText (q :: rest)).length
          = (toDec (packetMarshalText q).length).length + 1
            + (packetMarshalText q).length + (payloadMarshalText rest).length := by
        simp [payloadMarshalText]
        omega
      have hdigits : 1 ≤ (toDec (packetMarshalText q).length).length := by
        cases hh : toDec (packetMarshalText q).length with
        | nil => exact absurd hh (toDec_ne_nil _)
        | cons a l => simp
      unfold payloadUnmarshalAux
      rw [payloadMarshalText, idxOf58_append _ (colon_not_in_toDec _)]
      simp only [htake, atoiOpt_toDec, Option.getD_some, hdrop]
      rw [if_pos (by simp [hlen] at hfuel ⊢; omega)]
      simp only [hdrop, take_append_self, drop_append_self]
      rw [hrt q (by simp)]
      exact (ih (acc ++ [q]) fuel (by omega) (fun x hx => hrt x (by simp [hx]))).trans
        (by simp)

/-- Round trip of the server text payload codec, starting from an
empty payload. -/
theorem payloadUnmarshal_marshal (Q : List packetS)
    (hrt : ∀ q ∈ Q, packetUnmarshalText (packetMarshalText q) = some q) :
    payloadUnmarshalText [] (payloadMarshalText Q) = some Q := by
  have := payloadUnmarshalAux_marshal Q [] ((payloadMarshalText Q).length + 1) (by omega) hrt
  simpa [payloadUnmarshalText] using this

theorem singleton_isPrefixOf (c b : Nat) (rest : List Nat) :
    [c].isPrefixOf (b :: rest) = (c == b) := by
  simp [List.isPrefixOf]

/-! ### Claims C1, C2, C10 -/

/-- C2: for every packet whose type is one of the seven valid types and
whose data is an arbitrary (possibly empty) byte sequence, decoding the
encoding returns the same packet bytewise on (type, data) — for the
scratch byte codec (`packetDecoder.decode ∘ packetEncoder.encode`) and
the server text codec (`packet.UnmarshalText ∘ packet.MarshalText`, on
string data) alike. -/
theorem C2_packet_roundtrip (t : Nat) (d : List Nat) (ts : List Nat) (ds : List Nat)
    (ht : t ∈ packetTypeLookup) (hts : ts ∈ packetTypes) :
    packetDecode (packetEncode ⟨t, d⟩) = some ⟨t, d⟩ ∧
    packetUnmarshalText (packetMarshalText ⟨ts, .str ds⟩) = some ⟨ts, .str ds⟩ := by
  constructor
  · simp [packetEncode, packetDecode, ht]
  · simp only [packetTypes, List.mem_cons, List.mem_singleton, List.not_mem_nil, or_false] at hts
    rcases hts with h | h | h | h | h | h | h <;> subst h <;>
      simp [packetMarshalText, packetUnmarshalText, packetTypes, List.find?,
        singleton_isPrefixOf]

/-- Witness for C2 at a concrete MESSAGE packet. -/
theorem C2_packet_roundtrip_witness :
    52 ∈ packetTypeLookup ∧ [52] ∈ packetTypes ∧
    (packetDecode (packetEncode ⟨52, [104, 105]⟩) = some ⟨52, [104, 105]⟩ ∧
     packetUnmarshalText (packetMarshalText ⟨[52], .str [104]⟩) = some ⟨[52], .str [104]⟩) :=
  ⟨by decide, by decide,
   C2_packet_roundtrip 52 [104, 105] [52] [104] (by decide) (by decide)⟩

/-- C1: for every payload (ordered packet sequence) whose packets each
round-trip through the packet codec, decoding the encoding yields the
payload itself — packet count, order and each (type, data) preserved —
for the scratch codec (`payloadDecoder.decode ∘ payloadEncoder.encode`)
and the server text codec (`payload.UnmarshalText ∘ payload.MarshalText`)
alike; in particular the `strconv.Atoi(s[l:i])` length parse reads
`s[0:i]` (the freshly declared `l` is 0) and does not break the round
trip. -/
theorem C1_payload_roundtrip (P : List packet) (Q : List packetS)
    (hP : ∀ p ∈ P, packetDecode (packetEncode p) = some p)
    (hQ : ∀ q ∈ Q, packetUnmarshalText (packetMarshalText q) = some q) :
    payloadDecode (payloadEncode P) = some P ∧
    payloadUnmarshalText [] (payloadMarshalText Q) = some Q :=
  ⟨payloadDecodeAux_encode P _ (by omega) hP, payloadUnmarshal_marshal Q hQ⟩

/-- Witness for C1 at concrete two-packet payloads. -/
theorem C1_payload_roundtrip_witness :
    (∀ p ∈ [packet.mk 52 [104, 105], packet.mk 54 []],
        packetDecode (packetEncode p) = some p) ∧
    (∀ q ∈ [packetS.mk [48] (.str []), packetS.mk [52] (.str [104])],
        packetUnmarshalText (packetMarshalText q) = some q) ∧
    (payloadDecode (payloadEncode [packet.mk 52 [104, 105], packet.mk 54 []])
        = some [packet.mk 52 [104, 105], packet.mk 54 []] ∧
     payloadUnmarshalText []
        (payloadMarshalText [packetS.mk [48] (.str []), packetS.mk [52] (.str [104])])
        = some [packetS.mk [48] (.str []), packetS.mk [52] (.str [104])]) :=
  ⟨by decide, by decide,
   C1_payload_roundtrip [packet.mk 52 [104, 105], packet.mk 54 []]
     [packetS.mk [48] (.str []), packetS.mk [52] (.str [104])] (by decide) (by decide)⟩

/-- C10: on any input without a `':'` byte — the empty input included —
`payload.UnmarshalText` hits `strings.Index(s, ":") == -1` at once, the
loop body never runs, and the method returns a nil error leaving the
payload as it started (empty at every call site); the discarded
`strconv.Atoi` error means no length error can surface here. -/
theorem C10_no_colon_decode_ok (s : List Nat) (acc : List packetS) (h : 58 ∉ s) :
    payloadUnmarshalText acc s = some acc := by
  unfold payloadUnmarshalText payloadUnmarshalAux
  rw [idxOf58_eq_none h]

/-- Witness for C10 on the garbage input "garbage" and an empty
payload. -/
theorem C10_no_colon_decode_ok_witness :
    58 ∉ [103, 97, 114, 98, 97, 103, 101] ∧
    payloadUnmarshalText [] [103, 97, 114, 98, 97, 103, 101] = some [] :=
  ⟨by decide, C10_no_colon_decode_ok [103, 97, 114, 98, 97, 103, 101] [] (by decide)⟩

/-! ### The session state machine (src/conn.go) -/

/-- The four ready states `readyStateOpening .. readyStateClosed`
(string constants in the source). `opened` models `"open"` (a Lean
keyword). -/
inductive ReadyState where
  | opening
  | opened
  | closing
  | closed
deriving DecidableEq

/-- The two transports `transportPolling` and `transportWebSocket`
(string constants in the source; connections are only ever constructed
with one of the two). -/
inductive Transport where
  | polling
  | websocket
deriving DecidableEq

/-- Position of a state along Opening → Open → Closing → Closed,
for stating monotonicity. -/
def stateRank : ReadyState → Nat
  | .opening => 0
  | .opened => 1
  | .closing => 2
  | .closed => 3

/-- A `conn` (src/conn.go): its mutable state as touched by the
operations in scope. `ws` is whether a WebSocket is bound
(`c.ws != nil`); `sendClosed` records `close(c.send)`; `sendQ` is the
sequence of payloads put on the `send` channel and not yet consumed;
`messages` is the buffered `messages` channel; `stateLog` is a ghost
trace of every `setReadyState` call. -/
structure conn where
  id : String
  transport : Transport
  upgraded : Bool
  ws : Bool
  state : ReadyState
  stateLog : List ReadyState
  sendClosed : Bool
  sendQ : List (List packetS)
  messages : List GoData
deriving DecidableEq

/-- `conn.readyState` (the `stateMu`-guarded read). -/
def conn.readyState (c : conn) : ReadyState := c.state

/-- `conn.setReadyState` (the `stateMu`-guarded write), also recording
the write on the ghost trace. -/
def conn.setReadyState (c : conn) (s : ReadyState) : conn :=
  { c with state := s, stateLog := c.stateLog ++ [s] }

/-- Result of a blocking `Receive`. -/
inductive recvResult where
  | errClosed
  | blocked
  | msg (v : GoData)
deriving DecidableEq

/-- `conn.Send`: errors when the state is Closing or Closed, otherwise
puts a payload of one MESSAGE packet on `send` (the nil-receiver branch
is unreachable for a constructed conn and omitted; the unbuffered
channel hand-off is modelled as an enqueue). -/
def conn.Send (c : conn) (v : GoData) : Except String Unit × conn :=
  if c.readyState = .closing ∨ c.readyState = .closed then
    (.error "attempt to receive on a closed connection", c)
  else
    (.ok (), { c with sendQ := c.sendQ ++ [[⟨packetTypeMessageS, v⟩]] })

/-- `conn.Receive`: errors when the state is Closing or Closed,
otherwise takes the next buffered message (`blocked` models the
suspended `<-c.messages` when none is buffered). -/
def conn.Receive (c : conn) : recvResult × conn :=
  if c.readyState = .closing ∨ c.readyState = .closed then
    (.errClosed, c)
  else
    match c.messages with
    | [] => (.blocked, c)
    | v :: rest => (.msg v, { c with messages := rest })

/-- `conn.open` (renamed: `open` is a Lean keyword): errors if the
connection is already open, otherwise writes the open packet or payload
to the transport (marshalling the conn's handshake JSON never fails and
the write is modelled as succeeding) and sets the state to Open. -/
def conn.openC (c : conn) : Except String Unit × conn :=
  if c.readyState = .opened then
    (.error "connection is already open", c)
  else
    (.ok (), c.setReadyState .opened)

/-- `conn.Close`: errors when the state is Closing or Closed; otherwise
sets Closing, closes `send` (non-nil for every constructed conn), and —
where the source reads `if c.ws != nil { c.Close(); c.ws = nil }` — the
recursive `c.Close()` hits the Closing guard above and mutates nothing,
after which `ws` is nil either way; finally sets Closed. -/
def conn.Close (c : conn) : Except String Unit × conn :=
  if c.readyState = .closing ∨ c.readyState = .closed then
    (.error "connection is already closed", c)
  else
    let c1 := c.setReadyState .closing
    let c2 := { c1 with sendClosed := true }
    let c3 := { c2 with ws := false }
    (.ok (), c3.setReadyState .closed)

/-- `conn.sendPacket`: drops the packet on a non-open connection,
otherwise puts a one-packet payload on `send`. -/
def conn.sendPacket (c : conn) (p : packetS) : conn :=
  if c.readyState ≠ .opened then c
  else { c with sendQ := c.sendQ ++ [[p]] }

/-- `conn.onMessage`: pushes the data onto the buffered `messages`
channel (the source spawns a goroutine for the push; modelled as the
enqueue itself). -/
def conn.onMessage (c : conn) (d : GoData) : conn :=
  { c with messages := c.messages ++ [d] }

/-- `conn.onUpgrade`: a no-op unless the state is Open and the
connection is not already an upgraded WebSocket; otherwise flips
`upgraded` and the transport (and starts the writer task, which has no
conn-state effect here). -/
def conn.onUpgrade (c : conn) : conn :=
  if c.readyState ≠ .opened then c
  else if c.upgraded ∧ c.transport = .websocket then c
  else { c with upgraded := true, transport := .websocket }

/-- `conn.onPacket`: a no-op on a non-open connection; otherwise PING
is answered with a PONG carrying the same data, MESSAGE is buffered for
the application, UPGRADE upgrades, CLOSE closes, anything else is
ignored. -/
def conn.onPacket (c : conn) (p : packetS) : conn :=
  if c.readyState ≠ .opened then c
  else if p.typ = packetTypePingS then c.sendPacket ⟨packetTypePongS, p.data⟩
  else if p.typ = packetTypeMessageS then c.onMessage p.data
  else if p.typ = packetTypeUpgradeS then c.onUpgrade
  else if p.typ = packetTypeCloseS then (c.Close).2
  else c

/-- One application-handler call: a `Send` or a `Receive`. -/
inductive SROp where
  | send (v : GoData)
  | recv
deriving DecidableEq

/-- A sequence of Send/Receive calls, returning the success flag of
each call in order (a `Send` succeeds when it returns a nil error, a
`Receive` when it yields a message) and the final conn. -/
def conn.runSR : conn → List SROp → List Bool × conn
  | c, [] => ([], c)
  | c, .send v :: ops =>
    let r := c.Send v
    let rest := conn.runSR r.2 ops
    ((match r.1 with | .ok _ => true | .error _ => false) :: rest.1, rest.2)
  | c, .recv :: ops =>
    let r := c.Receive
    let rest := conn.runSR r.2 ops
    ((match r.1 with | .msg _ => true | _ => false) :: rest.1, rest.2)

theorem sendPacket_state (c : conn) (p : packetS) : (c.sendPacket p).state = c.state := by
  unfold conn.sendPacket
  split_ifs <;> rfl

theorem onUpgrade_state (c : conn) : c.onUpgrade.state = c.state := by
  unfold conn.onUpgrade
  split_ifs <;> rfl

theorem send_state (c : conn) (v : GoData) : (c.Send v).2.state = c.state := by
  unfold conn.Send conn.readyState
  split_ifs <;> rfl

theorem receive_state (c : conn) : (c.Receive).2.state = c.state := by
  unfold conn.Receive conn.readyState
  split_ifs with h
  · rfl
  · cases c.messages <;> rfl

theorem close_final_state (c : conn) (h : ¬(c.state = .closing ∨ c.state = .closed)) :
    (c.Close).2.state = .closed := by
  unfold conn.Close conn.readyState conn.setReadyState
  rw [if_neg h]

theorem close_on_closed (d : conn) (hd : d.state = .closing ∨ d.state = .closed) :
    d.Close = (.error "connection is already closed", d) := by
  unfold conn.Close conn.readyState
  rw [if_pos hd]

theorem close_state_mono (c : conn) : stateRank c.state ≤ stateRank (c.Close).2.state := by
  by_cases h : c.state = .closing ∨ c.state = .closed
  · unfold conn.Close conn.readyState
    rw [if_pos h]
  · rw [close_final_state c h]
    cases hc : c.state <;> simp [stateRank]

theorem onPacket_state_mono (c : conn) (p : packetS) :
    stateRank c.state ≤ stateRank (c.onPacket p).state := by
  unfold conn.onPacket
  split_ifs with h1 h2 h3 h4 h5
  · exact le_refl _
  · rw [sendPacket_state]
  · rfl
  · rw [onUpgrade_state]
  · have hopen : c.state = .opened := not_not.mp h1
    rw [close_final_state c (by simp [hopen])]
    simp [hopen, stateRank]
  · exact le_refl _

/-- C3 fails as stated: a session in the Opening state is not Open, yet
`Send` returns a nil error and enqueues a MESSAGE payload, and
`Receive` consumes a buffered message — the guards in
`conn.Send`/`conn.Receive` only reject Closing and Closed. -/
theorem C3_counterexample :
    (conn.mk "s1" .polling false false .opening [] false [] []).state ≠ .opened ∧
    ((conn.mk "s1" .polling false false .opening [] false [] []).Send (.str [104])).1 = .ok () ∧
    ((conn.mk "s1" .polling false false .opening [] false [] []).Send (.str [104])).2.sendQ
      = [[⟨packetTypeMessageS, .str [104]⟩]] ∧
    ((conn.mk "s1" .polling false false .opening [] false [] [.str [104]]).Receive).1
      = .msg (.str [104]) ∧
    ((conn.mk "s1" .polling false false .opening [] false [] [.str [104]]).Receive).2.messages
      = [] := by
  refine ⟨by decide, ?_, ?_, ?_, ?_⟩ <;> rfl

/-- C3 amended: `Send` and `Receive` fail — with the connection left
unchanged — when the state is Closing or Closed (an Opening session is
not rejected); in particular once the state is Closed, every subsequent
`Send` or `Receive` in any order fails and leaves the state Closed. -/
theorem C3_amended (c : conn) (v : GoData)
    (h : c.state = .closing ∨ c.state = .closed) :
    (c.Send v = (.error "attempt to receive on a closed connection", c) ∧
     c.Receive = (.errClosed, c)) ∧
    (c.state = .closed → ∀ ops : List SROp,
      (conn.runSR c ops).1.all (fun b => !b) = true ∧ (conn.runSR c ops).2 = c) := by
  have hsend : c.Send v = (.error "attempt to receive on a closed connection", c) := by
    unfold conn.Send conn.readyState
    rw [if_pos h]
  have hrecv : c.Receive = (.errClosed, c) := by
    unfold conn.Receive conn.readyState
    rw [if_pos h]
  refine ⟨⟨hsend, hrecv⟩, ?_⟩
  intro hcl ops
  have hsend2 : ∀ w : GoData, c.Send w = (.error "attempt to receive on a closed connection", c) := by
    intro w
    unfold conn.Send conn.readyState
    rw [if_pos h]
  induction ops with
  | nil => exact ⟨rfl, rfl⟩
  | cons op ops ih =>
    cases op with
    | send w =>
      simp only [conn.runSR, hsend2 w]
      exact ⟨by simp [ih.1], ih.2⟩
    | recv =>
      simp only [conn.runSR, hrecv]
      exact ⟨by simp [ih.1], ih.2⟩

/-- Witness for the amended C3 on a concrete Closed session and the
call sequence Send; Receive. -/
theorem C3_amended_witness :
    ((conn.mk "s1" .polling false false .closed [] false [] []).state = .closing ∨
     (conn.mk "s1" .polling false false .closed [] false [] []).state = .closed) ∧
    ((conn.mk "s1" .polling false false .closed [] false [] []).Send (.str [104])
        = (.error "attempt to receive on a closed connection",
           conn.mk "s1" .polling false false .closed [] false [] []) ∧
     (conn.mk "s1" .polling false false .closed [] false [] []).Receive
        = (.errClosed, conn.mk "s1" .polling false false .closed [] false [] [])) ∧
    ((conn.runSR (conn.mk "s1" .polling false false .closed [] false [] [])
        [.send (.str [104]), .recv]).1.all (fun b => !b) = true ∧
     (conn.runSR (conn.mk "s1" .polling false false .closed [] false [] [])
        [.send (.str [104]), .recv]).2
        = conn.mk "s1" .polling false false .closed [] false [] []) :=
  ⟨Or.inr rfl,
   (C3_amended (conn.mk "s1" .polling false false .closed [] false [] [])
      (.str [104]) (Or.inr rfl)).1,
   (C3_amended (conn.mk "s1" .polling false false .closed [] false [] [])
      (.str [104]) (Or.inr rfl)).2 rfl [.send (.str [104]), .recv]⟩

/-- C4 fails as stated: `conn.open` refuses only a session that is
already Open, so calling it on a Closed session succeeds and moves the
state backward from Closed to Open. -/
theorem C4_counterexample :
    ((conn.mk "s1" .polling false false .closed [] false [] []).openC).1 = .ok () ∧
    ((conn.mk "s1" .polling false false .closed [] false [] []).openC).2.state = .opened ∧
    stateRank ((conn.mk "s1" .polling false false .closed [] false [] []).openC).2.state
      < stateRank (conn.mk "s1" .polling false false .closed [] false [] []).state := by
  refine ⟨rfl, rfl, by decide⟩

/-- C4 amended: `Close`, `onPacket`, `onUpgrade`, `Send` and `Receive`
never move the state backward along Opening → Open → Closing → Closed;
`open`, however, errors only on an Open session and otherwise sets the
state to Open, so it does return a Closing or Closed session to Open —
monotonicity holds for every operation except `open`. -/
theorem C4_amended (c : conn) (p : packetS) (v : GoData) :
    stateRank c.state ≤ stateRank (c.Close).2.state ∧
    stateRank c.state ≤ stateRank (c.onPacket p).state ∧
    stateRank c.state ≤ stateRank c.onUpgrade.state ∧
    stateRank c.state ≤ stateRank (c.Send v).2.state ∧
    stateRank c.state ≤ stateRank (c.Receive).2.state ∧
    (c.state ≠ .opened → (c.openC).2.state = .opened) := by
  refine ⟨close_state_mono c, onPacket_state_mono c p, ?_, ?_, ?_, ?_⟩
  · rw [onUpgrade_state]
  · rw [send_state]
  · rw [receive_state]
  · intro h
    unfold conn.openC conn.readyState
    rw [if_neg h]
    rfl

/-- Witness for the amended C4 on a concrete Closing session and a PING
packet. -/
theorem C4_amended_witness :
    (stateRank (conn.mk "s1" .polling false false .closing [] false [] []).state
      ≤ stateRank ((conn.mk "s1" .polling false false .closing [] false [] []).Close).2.state) ∧
    (stateRank (conn.mk "s1" .polling false false .closing [] false [] []).state
      ≤ stateRank ((conn.mk "s1" .polling false false .closing [] false [] []).onPacket
          ⟨packetTypePingS, .nil⟩).state) ∧
    ((conn.mk "s1" .polling false false .closing [] false [] []).state ≠ .opened ∧
     ((conn.mk "s1" .polling false false .closing [] false [] []).openC).2.state = .opened) :=
  ⟨(C4_amended (conn.mk "s1" .polling false false .closing [] false [] [])
      ⟨packetTypePingS, .nil⟩ .nil).1,
   (C4_amended (conn.mk "s1" .polling false false .closing [] false [] [])
      ⟨packetTypePingS, .nil⟩ .nil).2.1,
   by decide,
   (C4_amended (conn.mk "s1" .polling false false .closing [] false [] [])
      ⟨packetTypePingS, .nil⟩ .nil).2.2.2.2.2 (by decide)⟩

/-- C5: `Close` on an Open session succeeds, passing the state through
Closing (the ghost trace records the Closing write, then the Closed
write) and ending Closed; a second `Close` on the result returns the
"already closed" error and changes nothing, leaving the state
Closed. -/
theorem C5_close_transition (c : conn) (h : c.state = .opened) :
    (c.Close).1 = .ok () ∧
    (c.Close).2.state = .closed ∧
    (c.Close).2.stateLog = c.stateLog ++ [.closing, .closed] ∧
    ((c.Close).2.Close).1 = .error "connection is already closed" ∧
    ((c.Close).2.Close).2 = (c.Close).2 := by
  have hne : ¬(c.state = .closing ∨ c.state = .closed) := by simp [h]
  have h2 : (c.Close).2.state = .closed := close_final_state c hne
  have hsecond : (c.Close).2.Close
      = (.error "connection is already closed", (c.Close).2) :=
    close_on_closed _ (Or.inr h2)
  refine ⟨?_, h2, ?_, by rw [hsecond], by rw [hsecond]⟩
  · unfold conn.Close conn.readyState
    rw [if_neg hne]
  · unfold conn.Close conn.readyState conn.setReadyState
    rw [if_neg hne]
    simp

/-- Witness for C5 on a concrete Open polling session with a bound
WebSocket. -/
theorem C5_close_transition_witness :
    (conn.mk "s1" .polling false true .opened [.opened] false [] []).state = .opened ∧
    (((conn.mk "s1" .polling false true .opened [.opened] false [] []).Close).1 = .ok () ∧
     ((conn.mk "s1" .polling false true .opened [.opened] false [] []).Close).2.state = .closed ∧
     ((conn.mk "s1" .polling false true .opened [.opened] false [] []).Close).2.stateLog
        = [.opened] ++ [.closing, .closed] ∧
     (((conn.mk "s1" .polling false true .opened [.opened] false [] []).Close).2.Close).1
        = .error "connection is already closed" ∧
     (((conn.mk "s1" .polling false true .opened [.opened] false [] []).Close).2.Close).2
        = ((conn.mk "s1" .polling false true .opened [.opened] false [] []).Close).2) :=
  ⟨rfl, C5_close_transition (conn.mk "s1" .polling false true .opened [.opened] false [] []) rfl⟩

/-! ### The session registry (src/clientset.go and the guarded variant
in src/unnamed/part_005) -/

/-- A `Conn` of server.go as the registry and polling handlers see it:
its id, ready state, transport and the handshake timing parameters. -/
structure ConnA where
  ID : String
  readyState : ReadyState
  transport : Transport
  pingInterval : Nat
  pingTimeout : Nat
deriving DecidableEq

/-- The `clientSet` of src/clientset.go: the map `clients` keyed by
connection id, as an association list with map semantics (at most one
binding per key; lookups read the first). -/
abbrev clientSetA := List (String × ConnA)

/-- `clientSet.get`: the map read `c.clients[id]`; `none` is nil. -/
def clientSetA.get (r : clientSetA) (id : String) : Option ConnA :=
  (r.find? (fun e => e.1 == id)).map (fun e => e.2)

/-- `clientSet.add`: the unguarded map write
`c.clients[con.ID] = con` (no empty-id check in this variant). -/
def clientSetA.add (r : clientSetA) (con : ConnA) : clientSetA :=
  (con.ID, con) :: r.filter (fun e => e.1 != con.ID)

/-- `clientSet.remove`: `delete(c.clients, con.ID)`. -/
def clientSetA.remove (r : clientSetA) (con : ConnA) : clientSetA :=
  r.filter (fun e => e.1 != con.ID)

/-- `clientSet.len`. -/
def clientSetA.len (r : clientSetA) : Nat := r.length

/-- The keys collected under the read lock by `clientSet.reap`: every
entry whose `readyState()` is Closed. -/
def clientSetA.toDelete (r : clientSetA) : List String :=
  (r.filter (fun e => e.2.readyState == .closed)).map (fun e => e.1)

/-- `clientSet.reap`: snapshot the Closed keys under the read lock,
then delete each under the write lock. -/
def clientSetA.reap (r : clientSetA) : clientSetA :=
  r.filter (fun e => !(decide (e.1 ∈ clientSetA.toDelete r)))

/-- C6 fails as stated on `clientSet.add` of src/clientset.go: adding a
`Conn` whose ID is the empty string inserts a binding for the key `""`,
and `get("")` then returns that connection, not nil. -/
theorem C6_counterexample :
    clientSetA.add [] ⟨"", .opening, .polling, 25000, 60000⟩ ≠ ([] : clientSetA) ∧
    clientSetA.get (clientSetA.add [] ⟨"", .opening, .polling, 25000, 60000⟩) ""
      = some ⟨"", .opening, .polling, 25000, 60000⟩ := by
  exact ⟨by decide, rfl⟩

/-- A `conn` as the guarded clientSet of src/unnamed/part_005 sees it:
id and the `closed` flag its `reap` reads. -/
structure conn5 where
  id : String
  closed : Bool
deriving DecidableEq

/-- The guarded `clientSet` variant (src/unnamed/part_005). -/
abbrev clientSet5 := List (String × conn5)

/-- `clientSet.get` (guarded variant). -/
def clientSet5.get (r : clientSet5) (id : String) : Option conn5 :=
  (r.find? (fun e => e.1 == id)).map (fun e => e.2)

/-- `clientSet.add` (guarded variant): a conn with an empty id is not
added. -/
def clientSet5.add (r : clientSet5) (con : conn5) : clientSet5 :=
  if con.id = "" then r
  else (con.id, con) :: r.filter (fun e => e.1 != con.id)

/-- `clientSet.remove` (guarded variant). -/
def clientSet5.remove (r : clientSet5) (con : conn5) : clientSet5 :=
  r.filter (fun e => e.1 != con.id)

/-- The Closed keys snapshot of the guarded `reap` (it reads
`s.closed`). -/
def clientSet5.toDelete (r : clientSet5) : List String :=
  (r.filter (fun e => e.2.closed)).map (fun e => e.1)

/-- `clientSet.reap` (guarded variant). -/
def clientSet5.reap (r : clientSet5) : clientSet5 :=
  r.filter (fun e => !(decide (e.1 ∈ clientSet5.toDelete r)))

/-- One mutation of the guarded registry. -/
inductive RegOp5 where
  | add (c : conn5)
  | remove (c : conn5)
  | reap
deriving DecidableEq

/-- A sequence of guarded-registry mutations. -/
def clientSet5.run : clientSet5 → List RegOp5 → clientSet5
  | r, [] => r
  | r, .add c :: ops => clientSet5.run (clientSet5.add r c) ops
  | r, .remove c :: ops => clientSet5.run (clientSet5.remove r c) ops
  | r, .reap :: ops => clientSet5.run (clientSet5.reap r) ops

/-- No binding of the registry has the empty string as its key. -/
@[reducible] def noEmptyKey (r : clientSet5) : Prop := ∀ e ∈ r, e.1 ≠ ""

theorem noEmptyKey_filter (r : clientSet5) (q : String × conn5 → Bool)
    (h : noEmptyKey r) : noEmptyKey (r.filter q) := by
  intro e he
  exact h e (List.mem_filter.mp he).1

theorem add5_noEmpty (r : clientSet5) (c : conn5) (h : noEmptyKey r) :
    noEmptyKey (clientSet5.add r c) := by
  unfold clientSet5.add
  split_ifs with hc
  · exact h
  · intro e he
    rcases List.mem_cons.mp he with rfl | he'
    · exact hc
    · exact h e (List.mem_filter.mp he').1

theorem run5_noEmpty (ops : List RegOp5) :
    ∀ r : clientSet5, noEmptyKey r → noEmptyKey (clientSet5.run r ops) := by
  induction ops with
  | nil => intro r h; exact h
  | cons op ops ih =>
    intro r h
    cases op with
    | add c => exact ih _ (add5_noEmpty r c h)
    | remove c => exact ih _ (noEmptyKey_filter r _ h)
    | reap => exact ih _ (noEmptyKey_filter r _ h)

theorem get5_empty_of_noEmpty (r : clientSet5) (h : noEmptyKey r) :
    clientSet5.get r "" = none := by
  unfold clientSet5.get
  rw [List.find?_eq_none.mpr]
  · rfl
  · intro e he
    simpa using h e he

/-- C6 amended: the guarded `clientSet.add` variant
(src/unnamed/part_005) rejects empty-id sessions — adding one is a
no-op, and starting from any registry without empty keys, no sequence
of add/remove/reap ever introduces an empty key, so `get("")` returns
nil throughout; the `clientSet.add` of src/clientset.go lacks the guard
and does insert empty ids. -/
theorem C6_amended (r : clientSet5) (c : conn5) (ops : List RegOp5)
    (hc : c.id = "") (hr : noEmptyKey r) :
    clientSet5.add r c = r ∧
    noEmptyKey (clientSet5.run r ops) ∧
    clientSet5.get (clientSet5.run r ops) "" = none := by
  have hrun := run5_noEmpty ops r hr
  exact ⟨by unfold clientSet5.add; rw [if_pos hc], hrun, get5_empty_of_noEmpty _ hrun⟩

/-- Witness for the amended C6: an empty-id add, a normal add, and a
reap starting from the empty registry. -/
theorem C6_amended_witness :
    (conn5.mk "" false).id = "" ∧
    noEmptyKey ([] : clientSet5) ∧
    (clientSet5.add [] (conn5.mk "" false) = [] ∧
     noEmptyKey (clientSet5.run [] [.add (conn5.mk "" false), .add (conn5.mk "a" false), .reap]) ∧
     clientSet5.get (clientSet5.run [] [.add (conn5.mk "" false), .add (conn5.mk "a" false), .reap]) ""
       = none) :=
  ⟨rfl, by decide,
   C6_amended [] (conn5.mk "" false)
     [.add (conn5.mk "" false), .add (conn5.mk "a" false), .reap] rfl (by decide)⟩

theorem find?_eq_some_unique {α : Type} (p : α → Bool) (x : α) :
    ∀ l : List α, x ∈ l → p x = true → (∀ y ∈ l, p y = true → y = x) →
    l.find? p = some x := by
  intro l
  induction l with
  | nil => intro hmem; exact absurd hmem (List.not_mem_nil x)
  | cons a l ih =>
    intro hmem hpx huniq
    by_cases hpa : p a = true
    · have ha : a = x := huniq a (by simp) hpa
      subst ha
      simp [List.find?, hpa]
    · have hx : x ∈ l := by
        rcases List.mem_cons.mp hmem with rfl | h
        · exact absurd hpx hpa
        · exact h
      have hfa : p a = false := by
        cases hpb : p a
        · rfl
        · exact absurd hpb hpa
      simp only [List.find?, hfa]
      exact ih hx hpx (fun y hy hpy => huniq y (by simp [hy]) hpy)

/-- C7: after `clientSet.reap`, `get(id)` is nil for every session that
was Closed in the read snapshot, while every session that was not
Closed stays retrievable under its id (keys are unique, as in the Go
map). -/
theorem C7_reap_get (r : clientSetA) (hnd : (r.map (fun e => e.1)).Nodup)
    (id : String) (c : ConnA) (hget : clientSetA.get r id = some c) :
    (c.readyState = .closed → clientSetA.get (clientSetA.reap r) id = none) ∧
    (c.readyState ≠ .closed → clientSetA.get (clientSetA.reap r) id = some c) := by
  have hinj : ∀ x ∈ r, ∀ y ∈ r, x.1 = y.1 → x = y :=
    List.inj_on_of_nodup_map hnd
  obtain ⟨e, hfind, he2⟩ :
      ∃ e, r.find? (fun e => e.1 == id) = some e ∧ e.2 = c := by
    unfold clientSetA.get at hget
    cases hf : r.find? (fun e => e.1 == id) with
    | none => rw [hf] at hget; exact Option.noConfusion hget
    | some e =>
      rw [hf] at hget
      exact ⟨e, rfl, Option.some.inj hget⟩
  have he1 : e.1 = id := by
    have := List.find?_some hfind
    simpa using this
  have hemem : e ∈ r := List.mem_of_find?_eq_some hfind
  have hec : e = (id, c) := by
    cases e
    simp only at he1 he2
    rw [he1, he2]
  rw [hec] at hemem
  constructor
  · intro hcl
    have hid : id ∈ clientSetA.toDelete r := by
      unfold clientSetA.toDelete
      exact List.mem_map.mpr ⟨(id, c), List.mem_filter.mpr ⟨hemem, by simp [hcl]⟩, rfl⟩
    unfold clientSetA.get clientSetA.reap
    rw [List.find?_eq_none.mpr]
    · rfl
    · intro y hy
      have hq := (List.mem_filter.mp hy).2
      intro hbeq
      have hy1 : y.1 = id := by simpa using hbeq
      rw [hy1] at hq
      simp [hid] at hq
  · intro hncl
    have hid : id ∉ clientSetA.toDelete r := by
      intro hmem
      unfold clientSetA.toDelete at hmem
      obtain ⟨x, hxf, hx1⟩ := List.mem_map.mp hmem
      have hxr := (List.mem_filter.mp hxf).1
      have hxcl : x.2.readyState = .closed := by
        have := (List.mem_filter.mp hxf).2
        simpa using this
      have : x = (id, c) := hinj x hxr (id, c) hemem (by simpa using hx1)
      rw [this] at hxcl
      exact hncl hxcl
    unfold clientSetA.get clientSetA.reap
    rw [find?_eq_some_unique (fun e => e.1 == id) (id, c)]
    · rfl
    · exact List.mem_filter.mpr ⟨hemem, by simp [hid]⟩
    · simp
    · intro y hy hybeq
      have hy1 : y.1 = id := by simpa using hybeq
      exact hinj y (List.mem_filter.mp hy).1 (id, c) hemem (by simpa using hy1)

/-- Witness for C7 on a registry with one Closed and one Open
session. -/
theorem C7_reap_get_witness :
    (([(("a" : String), ConnA.mk "a" .closed .polling 25000 60000),
       (("b" : String), ConnA.mk "b" .opened .polling 25000 60000)].map (fun e => e.1)).Nodup) ∧
    clientSetA.get [("a", ConnA.mk "a" .closed .polling 25000 60000),
                    ("b", ConnA.mk "b" .opened .polling 25000 60000)] "a"
      = some (ConnA.mk "a" .closed .polling 25000 60000) ∧
    (ConnA.mk "a" .closed .polling 25000 60000).readyState = .closed ∧
    clientSetA.get (clientSetA.reap [("a", ConnA.mk "a" .closed .polling 25000 60000),
                                     ("b", ConnA.mk "b" .opened .polling 25000 60000)]) "a"
      = none :=
  ⟨by decide, rfl, rfl,
   (C7_reap_get [("a", ConnA.mk "a" .closed .polling 25000 60000),
                 ("b", ConnA.mk "b" .opened .polling 25000 60000)]
      (by decide) "a" (ConnA.mk "a" .closed .polling 25000 60000) rfl).1 rfl⟩

/-! ### Polling GET (Conn.pollingDataGet of server.go and
conn.pollingDataGet of src/conn.go) -/

/-- The `DefaultPingTimeout` constant (ms): the duration
`Conn.pollingDataGet` passes to `time.After`, as its comment says. -/
def DefaultPingTimeout : Nat := 60000

/-- `newPacket(packetTypeNoop, nil)`. -/
def noopPacketS : packetS := ⟨packetTypeNoopS, .nil⟩

/-- An HTTP response of a polling data handler. -/
inductive GetResp where
  | ok (body : List Nat)
  | httpError (status : Nat)
deriving DecidableEq

/-- `Conn.pollingDataGet` (server.go): BadRequest unless the transport
is polling; otherwise `select` races the `send` channel against
`time.After(DefaultPingTimeout)`. The select is modelled by the arrival
time in ms of the next payload on `send` (`none`: no payload ever): the
payload wins exactly when it arrives strictly before the timer fires (a
simultaneous arrival is a scheduler race, determinized here in the
timer's favor); on timeout the response is a one-NOOP payload. The
payload marshal never fails on the packets this server queues, so the
500 branch is not modelled. -/
def ConnA.pollingDataGet (c : ConnA) (arrival : Option (Nat × List packetS)) : GetResp :=
  if c.transport != .polling then .httpError 400
  else
    let buf : List packetS :=
      match arrival with
      | some (t, p) => if t < DefaultPingTimeout then p else [noopPacketS]
      | none => [noopPacketS]
    .ok (payloadMarshalText buf)

/-- `conn.pollingDataGet` (src/conn.go): BadRequest — and a `Close` —
unless the transport is polling; otherwise it blocks on `<-c.send`
with no timer at all: `recv` is the payload received, `none` meaning
the channel was closed (the conn is then closed and nothing written;
response `none`). -/
def conn.pollingDataGet (c : conn) (recv : Option (List packetS)) : Option GetResp × conn :=
  if c.transport != .polling then (some (.httpError 400), (c.Close).2)
  else
    match recv with
    | none => (none, (c.Close).2)
    | some buf => (some (.ok (payloadMarshalText buf)), c)

/-- C8 fails as stated: the session advertises `pingTimeout = 1` ms,
no outbound payload exists within 1 ms (the first arrives at 5 ms),
yet the GET does not answer with a NOOP payload — it flushes the
5 ms MESSAGE payload, because the code's timer is the constant
`DefaultPingTimeout`, not the session's `pingTimeout`. -/
theorem C8_counterexample :
    (ConnA.mk "s1" .opened .polling 25000 1).transport = .polling ∧
    (ConnA.mk "s1" .opened .polling 25000 1).pingTimeout ≤ 5 ∧
    ConnA.pollingDataGet (ConnA.mk "s1" .opened .polling 25000 1)
        (some (5, [⟨packetTypeMessageS, .str [104]⟩]))
      = .ok (payloadMarshalText [⟨packetTypeMessageS, .str [104]⟩]) ∧
    ConnA.pollingDataGet (ConnA.mk "s1" .opened .polling 25000 1)
        (some (5, [⟨packetTypeMessageS, .str [104]⟩]))
      ≠ .ok (payloadMarshalText [noopPacketS]) := by
  refine ⟨rfl, by decide, rfl, by decide⟩

/-- C8 amended: on a polling-transport session, a GET that sees no
outbound payload within `DefaultPingTimeout` (60000 ms — the constant
the code arms its timer with, equal to the session's `pingTimeout`
only in the default configuration) responds with the marshalled
one-NOOP payload, whose decoding is exactly one packet of type NOOP;
on a non-polling session both the server.go handler and the
src/conn.go handler (which has no timer at all and never synthesizes a
NOOP) respond 400 BadRequest. -/
theorem C8_amended (c : ConnA) (arrival : Option (Nat × List packetS))
    (c2 : conn) (recv : Option (List packetS)) :
    (c.transport = .polling →
      (∀ t p, arrival = some (t, p) → DefaultPingTimeout ≤ t) →
      ConnA.pollingDataGet c arrival = .ok (payloadMarshalText [noopPacketS]) ∧
      payloadUnmarshalText [] (payloadMarshalText [noopPacketS])
        = some [⟨packetTypeNoopS, .str []⟩]) ∧
    (c.transport ≠ .polling → ConnA.pollingDataGet c arrival = .httpError 400) ∧
    (c2.transport ≠ .polling → (c2.pollingDataGet recv).1 = some (.httpError 400)) := by
  refine ⟨?_, ?_, ?_⟩
  · intro hp hlate
    constructor
    · unfold ConnA.pollingDataGet
      rw [if_neg (by simp [hp])]
      cases harr : arrival with
      | none => rfl
      | some tp =>
        cases tp with
        | mk t p =>
          have := hlate t p harr
          simp only
          rw [if_neg (by omega)]
    · decide
  · intro hnp
    unfold ConnA.pollingDataGet
    rw [if_pos (by simpa using hnp)]
  · intro hnp
    unfold conn.pollingDataGet
    rw [if_pos (by simpa using hnp)]

/-- Witness for the amended C8: a default polling session with no
outbound traffic, and a WebSocket-transport session. -/
theorem C8_amended_witness :
    ((ConnA.mk "s2" .opened .polling 25000 60000).transport = .polling ∧
     (∀ t p, (none : Option (Nat × List packetS)) = some (t, p) → DefaultPingTimeout ≤ t) ∧
     (ConnA.pollingDataGet (ConnA.mk "s2" .opened .polling 25000 60000) none
        = .ok (payloadMarshalText [noopPacketS]) ∧
      payloadUnmarshalText [] (payloadMarshalText [noopPacketS])
        = some [⟨packetTypeNoopS, .str []⟩])) ∧
    ((ConnA.mk "s3" .opened .websocket 25000 60000).transport ≠ .polling ∧
     ConnA.pollingDataGet (ConnA.mk "s3" .opened .websocket 25000 60000) none
       = .httpError 400) ∧
    ((conn.mk "s4" .websocket true true .opened [] false [] []).transport ≠ .polling ∧
     ((conn.mk "s4" .websocket true true .opened [] false [] []).pollingDataGet none).1
       = some (.httpError 400)) :=
  ⟨⟨rfl, fun t p h => Option.noConfusion h,
    (C8_amended (ConnA.mk "s2" .opened .polling 25000 60000) none
       (conn.mk "s4" .websocket true true .opened [] false [] []) none).1 rfl
      (fun t p h => Option.noConfusion h)⟩,
   ⟨by decide,
    (C8_amended (ConnA.mk "s3" .opened .websocket 25000 60000) none
       (conn.mk "s4" .websocket true true .opened [] false [] []) none).2.1 (by decide)⟩,
   ⟨by decide,
    (C8_amended (ConnA.mk "s2" .opened .polling 25000 60000) none
       (conn.mk "s4" .websocket true true .opened [] false [] []) none).2.2 (by decide)⟩⟩

/-! ### The HTTP dispatcher (server.ServeHTTP, pollingHandler,
pollingHandshake, serverError of server.go) -/

/-- `strings.HasPrefix(s, pre)`. -/
def goHasPrefix (s pre : String) : Bool := pre.toList.isPrefixOf s.toList

/-- The `validTransports` map: membership of the `transport` query
value (`""` when the parameter is missing). -/
def validTransports (t : String) : Bool := t == "websocket" || t == "polling"

/-- The `errorMessage` map. -/
def errorMessageOf (code : Nat) : String :=
  if code = 0 then "Transport unknown"
  else if code = 1 then "Session ID unknown"
  else if code = 2 then "Bad handshake method"
  else if code = 3 then "Bad request"
  else ""

/-- UTF-8 bytes of an ASCII string. -/
def strBytes (s : String) : List Nat := s.toList.map Char.toNat

/-- An HTTP response: status, Content-Type, body bytes and the cookie
set via `http.SetCookie`, if any. -/
structure HttpResponse where
  status : Nat
  contentType : String
  body : List Nat
  cookie : Option (String × String)
deriving DecidableEq

/-- `serverError`: HTTP 400, `application/json`, and the
`json.NewEncoder(w).Encode` output for the error envelope (the encoder
appends a newline). -/
def serverErrorResp (code : Nat) : HttpResponse :=
  ⟨400, "application/json",
   strBytes ("\x7b\"code\":" ++ toString code ++ ",\"message\":\""
     ++ errorMessageOf code ++ "\"\x7d\n"),
   none⟩

/-- An incoming HTTP request as the dispatcher reads it: the URL path
and the `transport`/`sid` form values (`""` when absent) and the
method. -/
structure Request where
  path : String
  transport : String
  sid : String
  method : String
deriving DecidableEq

/-- The server state the dispatcher can mutate: configuration, the
client set, and the stream of ids `newID()` will hand out (modelled as
an oracle list, since the generator is random). -/
structure SrvState where
  basePath : String
  cookieName : String
  pingInterval : Nat
  pingTimeout : Nat
  clients : clientSetA
  freshIds : List String
deriving DecidableEq

/-- What the dispatcher did with a request. `wsDelegated` hands off to
the `websocket.Server` (the in-connection WS loop is beyond this HTTP
model); `pollingPost`/`pollingGet` hand off to the per-conn polling
handlers (modelled separately by `ConnA.pollingDataGet`). -/
inductive HttpOut where
  | response (resp : HttpResponse)
  | wsDelegated
  | pollingPost (sid : String)
  | pollingGet (sid : String)
deriving DecidableEq

/-- `clientSet.set` (the gen of server.go lines 233-279 keys the map
explicitly): `c.clients[id] = s`. -/
def clientSetA.set (r : clientSetA) (id : String) (con : ConnA) : clientSetA :=
  (id, con) :: r.filter (fun e => e.1 != id)

/-- `handshakeData` / the JSON the open packet carries
(`json.Marshal` of the Conn: its tagged exported fields in struct
order). -/
def handshakeJSON (c : ConnA) : String :=
  "\x7b\"sid\":\"" ++ c.ID ++ "\",\"upgrades\":[\"websocket\"],\"pingInterval\":"
    ++ toString c.pingInterval ++ ",\"pingTimeout\":" ++ toString c.pingTimeout ++ "\x7d"

/-- `server.pollingHandshake`: create a `newConn` (its id drawn from
the id oracle), register it, set the session cookie when a cookie name
is configured, and answer with a payload of one OPEN packet carrying
the handshake JSON (`pollingOpen`, which also sets the state to Open;
the handler task spawn has no server-state effect here). -/
def SrvState.pollingHandshake (s : SrvState) : HttpOut × SrvState :=
  let id := s.freshIds.headD "sid"
  let c : ConnA := ⟨id, .opened, .polling, s.pingInterval, s.pingTimeout⟩
  let body := payloadMarshalText [⟨packetTypeOpenS, .other (strBytes (handshakeJSON c))⟩]
  (.response ⟨200, "text/plain; charset=UTF-8", body,
      if s.cookieName ≠ "" then some (s.cookieName, id) else none⟩,
   { s with clients := clientSetA.set s.clients c.ID c, freshIds := s.freshIds.tail })

/-- `server.pollingHandler`: with a `sid`, look the session up (error
envelope 1 on a miss) and dispatch on the method — POST and GET go to
the per-conn handlers, anything else is `http.Error(w, "bad method",
400)`; without a `sid`, run the polling handshake. -/
def SrvState.pollingHandler (s : SrvState) (r : Request) : HttpOut × SrvState :=
  if r.sid ≠ "" then
    match clientSetA.get s.clients r.sid with
    | none => (.response (serverErrorResp 1), s)
    | some _ =>
      if r.method = "POST" then (.pollingPost r.sid, s)
      else if r.method = "GET" then (.pollingGet r.sid, s)
      else (.response ⟨400, "text/plain; charset=utf-8", strBytes "bad method\n", none⟩, s)
  else s.pollingHandshake

/-- `server.ServeHTTP`: requests under the base path whose `transport`
is not a valid transport get error envelope 0 and nothing else runs;
otherwise `transport=websocket` is delegated to the WebSocket server
and everything else goes to the polling handler. -/
def SrvState.serveHTTP (s : SrvState) (r : Request) : HttpOut × SrvState :=
  if goHasPrefix r.path s.basePath && !(validTransports r.transport) then
    (.response (serverErrorResp 0), s)
  else if r.transport = "websocket" then (.wsDelegated, s)
  else s.pollingHandler r

/-- C9: every request under the base path whose `transport` query value
is missing or not in the set of valid transports is answered with
HTTP 400, Content-Type `application/json` and exactly the body
`("code":0,"message":"Transport unknown")` (braces elided here; the
encoder's trailing newline included), and the server state — registry
and id oracle — is untouched: no handshake, no session mutation. -/
theorem C9_transport_screen (s : SrvState) (r : Request)
    (hpath : goHasPrefix r.path s.basePath = true)
    (htr : validTransports r.transport = false) :
    s.serveHTTP r = (.response (serverErrorResp 0), s) ∧
    (serverErrorResp 0).status = 400 ∧
    (serverErrorResp 0).contentType = "application/json" ∧
    (serverErrorResp 0).body
      = strBytes "\x7b\"code\":0,\"message\":\"Transport unknown\"\x7d\n" := by
  refine ⟨?_, rfl, rfl, by decide⟩
  unfold SrvState.serveHTTP
  rw [hpath, htr]
  rfl

/-- Witness for C9: `GET /engine.io/?transport=hyperloop` against a
fresh default server. -/
theorem C9_transport_screen_witness :
    goHasPrefix "/engine.io/" "/engine.io/" = true ∧
    validTransports "hyperloop" = false ∧
    (SrvState.serveHTTP ⟨"/engine.io/", "io", 25000, 60000, [], ["id1"]⟩
        ⟨"/engine.io/", "hyperloop", "", "GET"⟩
      = (.response (serverErrorResp 0),
         ⟨"/engine.io/", "io", 25000, 60000, [], ["id1"]⟩) ∧
     (serverErrorResp 0).status = 400 ∧
     (serverErrorResp 0).contentType = "application/json" ∧
     (serverErrorResp 0).body
       = strBytes "\x7b\"code\":0,\"message\":\"Transport unknown\"\x7d\n") :=
  ⟨by decide, by decide,
   C9_transport_screen ⟨"/engine.io/", "io", 25000, 60000, [], ["id1"]⟩
     ⟨"/engine.io/", "hyperloop", "", "GET"⟩ (by decide) (by decide)⟩

end Ftc
